import Mathlib

/-!
Verification of the `dump_msg_tables` repository: the resource-identifier
codec (`src/sys.rs`, `src/str_util.rs`), the message-table decoder (spec
§4.2; the decoding routine itself is not present under `src/`, so it is
modelled from the spec), and the observable CLI behaviour (`src/main.rs`).

Modelling conventions:
* Strings are modelled as lists of Unicode codepoints (`List Nat`); the
  Rust code builds strings one `char` per 16-bit (or 8-bit) unit, so the
  codepoint list is a faithful, lossless image of the produced `String`.
* Foreign memory holding a null-terminated string is modelled as the list
  of units readable from the given address onward.
* Machine words are `Nat`; u16 truncation is explicit (`&&& 0xffff`).
* Fallible operations return `Except`/`Option` mirroring `Result`.
-/

set_option autoImplicit false

namespace DumpMsgTables

/-- `wide_to_utf8` from `src/sys.rs` (lines 77-86): walk 16-bit units from
the given address until the first zero unit, pushing one character per unit
with codepoint equal to the unit value (`char::from_u32_unchecked`).
Memory from the address is the list `mem`. -/
def wide_to_utf8 : List Nat → List Nat
  | [] => []
  | u :: rest => if u = 0 then [] else u :: wide_to_utf8 rest

/-- `utf16_to_utf8` from `src/str_util.rs` (lines 2-11); its body is
textually identical to `wide_to_utf8`. -/
def utf16_to_utf8 : List Nat → List Nat
  | [] => []
  | u :: rest => if u = 0 then [] else u :: utf16_to_utf8 rest

/-- `ansi_to_utf8` from `src/str_util.rs` (lines 14-23): same walk over
8-bit units, one character per byte. -/
def ansi_to_utf8 : List Nat → List Nat
  | [] => []
  | b :: rest => if b = 0 then [] else b :: ansi_to_utf8 rest

/-- `clone_wide` from `src/sys.rs` (lines 108-117): copies the 16-bit units
up to, and NOT including, the terminating zero. Note: unlike
`clone_utf16` in `src/str_util.rs`, no NULL terminator is appended. -/
def clone_wide : List Nat → List Nat
  | [] => []
  | u :: rest => if u = 0 then [] else u :: clone_wide rest

/-- `clone_utf16` from `src/str_util.rs` (lines 34-45): the same copy loop
as `clone_wide`, followed by `out.push(0)` (comment in source: add NULL
terminator). -/
def clone_utf16 (mem : List Nat) : List Nat := clone_wide mem ++ [0]

/-- ASCII decimal digit test, as in Rust's integer parsing
(`char::to_digit` on bytes b'0'..=b'9'). -/
def isDigit (c : Nat) : Bool := 48 ≤ c && c ≤ 57

/-- Digit loop of Rust's `u16::from_str` (`Nat.from_str_radix` with radix
10): consume ASCII digits, accumulating with checked multiply/add; exceeding
`u16::MAX` (65535) or a non-digit is an error. -/
def parseU16Go : List Nat → Nat → Option Nat
  | [], acc => some acc
  | c :: rest, acc =>
    if isDigit c then
      if acc * 10 + (c - 48) ≤ 65535 then parseU16Go rest (acc * 10 + (c - 48))
      else none
    else none

/-- Rust's `str::parse::<u16>` on a codepoint list: empty input is an
error; a single leading `+` (codepoint 43) is accepted and stripped (but
`+` alone is an error); a `-` is not special for an unsigned type and
fails as a non-digit; then the digit loop runs from accumulator 0. -/
def parseU16 : List Nat → Option Nat
  | [] => none
  | c :: rest =>
    if c = 43 then
      if rest = [] then none else parseU16Go rest 0
    else parseU16Go (c :: rest) 0

/-- `ResourceMetadata` from `src/sys.rs` (lines 119-122): either a 16-bit
ordinal `Id`, or a `String` holding both the UTF-8 text and the cloned
wide (UTF-16) units. -/
inductive ResourceMetadata where
  | Id : Nat → ResourceMetadata
  | String : List Nat → List Nat → ResourceMetadata
  deriving DecidableEq, Repr

deriving instance DecidableEq for Except

/-- `ResourceMetadata::parse` from `src/sys.rs` (lines 125-146). The wire
word is `data_num`; when it is a pointer, `mem` is the memory readable at
that address. If the high bits above the low 16 are zero the word is an
ordinal; otherwise the word is the address of a null-terminated UTF-16
string: a leading `#` (codepoint 35) demands a `u16` ordinal in the
remainder (`data_str[1..].parse::<u16>()`, error `Err(())` on failure),
anything else is a name kept as both UTF-8 text and cloned wide units. -/
def ResourceMetadata.parse (data_num : Nat) (mem : List Nat) :
    Except Unit ResourceMetadata :=
  if data_num >>> 16 = 0 then
    .ok (.Id (data_num &&& 0xffff))
  else
    let data_str := wide_to_utf8 mem
    if data_str.head? = some 35 then
      match parseU16 data_str.tail with
      | some id => .ok (.Id id)
      | none => .error ()
    else
      .ok (.String data_str (clone_wide mem))

/-- `ResourceMetadata::pack` from `src/sys.rs` (lines 148-153): an `Id`
becomes the small-integer wire word (`inl`); a `String` becomes the address
of its `wide` buffer, modelled by the buffer contents (`inr`). -/
def ResourceMetadata.pack : ResourceMetadata → Nat ⊕ List Nat
  | .Id id => .inl id
  | .String _ wide => .inr wide

/-- Unicode scalar values: the codepoints accepted by Rust `char` — every
value below 0x110000 except the UTF-16 surrogate range 0xD800-0xDFFF. -/
def isUnicodeScalar (n : Nat) : Bool :=
  n < 0xD800 || (0xDFFF < n && n < 0x110000)

/-! ### Message-table decoder

The message-table decoding routine of this repository is not present under
`src/` (`get_message_table_entries` in `src/main.rs` is an unfinished
stub), so the decoder below is modelled from spec §4.2. -/

/-- Modelled from the spec: read a little-endian 16-bit value from the byte
buffer at offset `i`; `none` when the buffer ends before both bytes. -/
def readU16 (buf : List Nat) (i : Nat) : Option Nat :=
  match buf[i]?, buf[i + 1]? with
  | some a, some b => some (a + 256 * b)
  | _, _ => none

/-- Modelled from the spec: read a little-endian 32-bit value from the byte
buffer at offset `i`. -/
def readU32 (buf : List Nat) (i : Nat) : Option Nat :=
  match readU16 buf i, readU16 buf (i + 2) with
  | some lo, some hi => some (lo + 65536 * hi)
  | _, _ => none

/-- Modelled from the spec (§4.2): a block descriptor
`{lowId, highId, offsetToEntries}` from the message-table header. -/
structure MessageBlockDesc where
  lowId : Nat
  highId : Nat
  offsetToEntries : Nat
  deriving DecidableEq, Repr

/-- Modelled from the spec: read `n` fixed-size (12-byte) block descriptors
starting at offset `pos`. -/
def readDescs (buf : List Nat) : Nat → Nat → Option (List MessageBlockDesc)
  | 0, _ => some []
  | n + 1, pos =>
    match readU32 buf pos, readU32 buf (pos + 4), readU32 buf (pos + 8),
        readDescs buf n (pos + 12) with
    | some lo, some hi, some off, some rest => some (⟨lo, hi, off⟩ :: rest)
    | _, _, _, _ => none

/-- Modelled from the spec (§7): decode failures of the message-table
walk. -/
inductive DecodeError where
  | Truncated
  | UnknownEncodingFlag
  deriving DecidableEq, Repr

/-- Modelled from the spec: group a little-endian byte list into 16-bit
units; an incomplete trailing byte is dropped. -/
def bytesToUnits : List Nat → List Nat
  | a :: b :: rest => (a + 256 * b) :: bytesToUnits rest
  | _ => []

/-- Modelled from the spec (§4.2 step 2b, flags = 0): ANSI text, one byte
per produced character, truncated at the first embedded terminator. -/
def ansiText (body : List Nat) : List Nat := body.takeWhile (fun b => b ≠ 0)

/-- Modelled from the spec (§4.2 step 2b, flags = 1): UTF-16LE text, one
16-bit unit per produced character, truncated at the first embedded
terminator. -/
def utf16Text (body : List Nat) : List Nat :=
  (bytesToUnits body).takeWhile (fun u => u ≠ 0)

/-- Modelled from the spec (§4.2, per-block walk): consume exactly `count`
records starting at `cursor`, accumulating the cursor by each record's
declared length; a cursor or record end past the buffer is `Truncated`, a
flags value other than 0/1 is `UnknownEncodingFlag`, and each record emits
`(lowId + k, text)` where the text extent is the declared length minus the
4-byte record header. -/
def decodeBlock (buf : List Nat) : Nat → Nat → Nat →
    Except DecodeError (List (Nat × List Nat))
  | _, 0, _ => .ok []
  | lowId, count + 1, cursor =>
    match readU16 buf cursor with
    | none => .error .Truncated
    | some len =>
      match readU16 buf (cursor + 2) with
      | none => .error .Truncated
      | some flags =>
        if buf.length < cursor + len then .error .Truncated
        else if flags = 0 then
          match decodeBlock buf (lowId + 1) count (cursor + len) with
          | .ok rest =>
              .ok ((lowId, ansiText ((buf.drop (cursor + 4)).take (len - 4))) :: rest)
          | .error e => .error e
        else if flags = 1 then
          match decodeBlock buf (lowId + 1) count (cursor + len) with
          | .ok rest =>
              .ok ((lowId, utf16Text ((buf.drop (cursor + 4)).take (len - 4))) :: rest)
          | .error e => .error e
        else .error .UnknownEncodingFlag

/-- Modelled from the spec: a block holds exactly `highId - lowId + 1`
records. -/
def blockCount (d : MessageBlockDesc) : Nat := d.highId - d.lowId + 1

/-- Modelled from the spec (§4.2): decode the blocks in their declaration
order, concatenating their entry lists; any block failure fails the whole
decode. -/
def decodeBlocks (buf : List Nat) : List MessageBlockDesc →
    Except DecodeError (List (Nat × List Nat))
  | [] => .ok []
  | d :: rest =>
    match decodeBlock buf d.lowId (blockCount d) d.offsetToEntries with
    | .error e => .error e
    | .ok l =>
      match decodeBlocks buf rest with
      | .error e => .error e
      | .ok r => .ok (l ++ r)

/-- Modelled from the spec (§4.2): whole-buffer decode — a 4-byte block
count, `N` descriptors, then the per-block walks. -/
def decodeMessageTable (buf : List Nat) :
    Except DecodeError (List (Nat × List Nat)) :=
  match readU32 buf 0 with
  | none => .error .Truncated
  | some n =>
    match readDescs buf n 4 with
    | none => .error .Truncated
    | some ds => decodeBlocks buf ds

/-! ### Observable CLI behaviour -/

/-- Modelled from the spec (§6): hexadecimal rendering of a message id, as
a codepoint list. -/
def toHex (n : Nat) : List Nat := (Nat.toDigits 16 n).map Char.toNat

/-- Modelled from the spec (§6): one output line per decoded entry —
hexadecimal id, colon (58), space (32), decoded text. The entry-printing
loop is absent from the source snapshot. -/
def formatEntry (e : Nat × List Nat) : List Nat :=
  toHex e.1 ++ [58, 32] ++ e.2

/-- Modelled from the spec (§7): a human-readable message per decode
error (codepoints of a short description; exact wording immaterial). -/
def errorText : DecodeError → List Nat
  | .Truncated => [116, 114, 117, 110, 99, 97, 116, 101, 100]
  | .UnknownEncodingFlag =>
      [98, 97, 100, 32, 101, 110, 99, 32, 102, 108, 97, 103]

/-- The observable behaviour of `main` (`src/main.rs` lines 9-14): on
success the collected lines go to standard output with exit code 0; on
error a single line `ERROR: <message>` (codepoints 69,82,82,79,82,58,32
followed by the message) with exit code 1. -/
def programOutput (r : Except (List Nat) (List (Nat × List Nat))) :
    List (List Nat) × Nat :=
  match r with
  | .ok entries => (entries.map formatEntry, 0)
  | .error msg => ([[69, 82, 82, 79, 82, 58, 32] ++ msg], 1)

/-- End-to-end observable behaviour on one message-table buffer: decode,
then print per `programOutput`. -/
def runProgram (buf : List Nat) : List (List Nat) × Nat :=
  programOutput ((decodeMessageTable buf).mapError errorText)

/-! ### Basic lemmas about the string walks -/

theorem wide_to_utf8_eq_utf16 (mem : List Nat) :
    wide_to_utf8 mem = utf16_to_utf8 mem := by
  induction mem with
  | nil => rfl
  | cons u rest ih => simp [wide_to_utf8, utf16_to_utf8, ih]

theorem clone_wide_eq_wide_to_utf8 (mem : List Nat) :
    clone_wide mem = wide_to_utf8 mem := by
  induction mem with
  | nil => rfl
  | cons u rest ih => simp [wide_to_utf8, clone_wide, ih]

theorem utf16_to_utf8_eq_takeWhile (mem : List Nat) :
    utf16_to_utf8 mem = mem.takeWhile (fun u => u ≠ 0) := by
  induction mem with
  | nil => rfl
  | cons u rest ih =>
    by_cases h : u = 0 <;> simp [utf16_to_utf8, List.takeWhile_cons, h, ih]

theorem wide_to_utf8_append (s junk : List Nat) (hs : ∀ u ∈ s, u ≠ 0)
    (hj : junk.head? = some 0) : wide_to_utf8 (s ++ junk) = s := by
  induction s with
  | nil =>
    cases junk with
    | nil => simp at hj
    | cons j rest =>
      simp only [List.head?_cons, Option.some.injEq] at hj
      simp [wide_to_utf8, hj]
  | cons u rest ih =>
    have hu : u ≠ 0 := hs u (by simp)
    simp only [List.cons_append, wide_to_utf8, if_neg hu]
    exact congrArg (fun l => u :: l) (ih (fun v hv => hs v (by simp [hv])))

/-! ### Characterisation of the embedded Rust `u16` parser -/

theorem foldl_digits_le (s : List Nat) (acc : Nat) :
    acc ≤ s.foldl (fun a c => a * 10 + (c - 48)) acc := by
  induction s generalizing acc with
  | nil => exact Nat.le_refl acc
  | cons c rest ih =>
    calc acc ≤ acc * 10 + (c - 48) := by omega
    _ ≤ rest.foldl (fun a c => a * 10 + (c - 48)) (acc * 10 + (c - 48)) := ih _

theorem parseU16Go_eq_some (s : List Nat) (acc n : Nat) (hacc : acc ≤ 65535) :
    parseU16Go s acc = some n ↔
      (∀ c ∈ s, isDigit c = true) ∧
      s.foldl (fun a c => a * 10 + (c - 48)) acc = n ∧ n ≤ 65535 := by
  induction s generalizing acc with
  | nil =>
    simp only [parseU16Go, Option.some.injEq, List.foldl_nil, List.not_mem_nil]
    constructor
    · rintro rfl; exact ⟨by simp, rfl, hacc⟩
    · rintro ⟨-, rfl, -⟩; rfl
  | cons c rest ih =>
    simp only [parseU16Go, List.foldl_cons, List.mem_cons]
    by_cases hd : isDigit c
    · simp only [if_pos hd]
      by_cases hb : acc * 10 + (c - 48) ≤ 65535
      · rw [if_pos hb, ih _ hb]
        constructor
        · rintro ⟨h1, h2, h3⟩
          exact ⟨fun x hx => by rcases hx with rfl | hx; exact hd; exact h1 x hx, h2, h3⟩
        · rintro ⟨h1, h2, h3⟩
          exact ⟨fun x hx => h1 x (Or.inr hx), h2, h3⟩
      · rw [if_neg hb]
        constructor
        · intro h; cases h
        · rintro ⟨-, h2, h3⟩
          exact absurd (le_trans (foldl_digits_le rest _) (h2 ▸ h3)) hb
    · simp only [if_neg hd]
      constructor
      · intro h; cases h
      · rintro ⟨h1, -, -⟩
        exact absurd (h1 c (Or.inl rfl)) hd

theorem parseU16_eq_some (s : List Nat) (n : Nat) :
    parseU16 s = some n ↔
      ∃ ds, (s = ds ∨ s = 43 :: ds) ∧ ds ≠ [] ∧
        (∀ c ∈ ds, isDigit c = true) ∧
        ds.foldl (fun a c => a * 10 + (c - 48)) 0 = n ∧ n ≤ 65535 := by
  cases s with
  | nil =>
    simp only [parseU16]
    constructor
    · intro h; cases h
    · rintro ⟨ds, hds, hne, -, -, -⟩
      rcases hds with rfl | h
      · exact absurd rfl hne
      · cases h
  | cons c rest =>
    by_cases hc : c = 43
    · subst hc
      have hunfold : parseU16 (43 :: rest) =
          if rest = [] then none else parseU16Go rest 0 := by
        simp [parseU16]
      rw [hunfold]
      by_cases hrest : rest = []
      · subst hrest
        simp only [if_pos rfl]
        constructor
        · intro h; cases h
        · rintro ⟨ds, hds, hne, hdig, -, -⟩
          rcases hds with rfl | hds
          · exact absurd (hdig 43 (by simp)) (by decide)
          · rw [List.cons.injEq] at hds
            exact absurd hds.2.symm hne
      · rw [if_neg hrest, parseU16Go_eq_some rest 0 n (by omega)]
        constructor
        · rintro ⟨h1, h2, h3⟩
          exact ⟨rest, Or.inr rfl, hrest, h1, h2, h3⟩
        · rintro ⟨ds, hds, hne, hdig, hval, hle⟩
          rcases hds with rfl | hds
          · exact absurd (hdig 43 (by simp)) (by decide)
          · rw [List.cons.injEq] at hds
            rcases hds with ⟨-, rfl⟩
            exact ⟨hdig, hval, hle⟩
    · have hunfold : parseU16 (c :: rest) = parseU16Go (c :: rest) 0 := by
        simp [parseU16, hc]
      rw [hunfold, parseU16Go_eq_some (c :: rest) 0 n (by omega)]
      constructor
      · rintro ⟨h1, h2, h3⟩
        exact ⟨c :: rest, Or.inl rfl, by simp, h1, h2, h3⟩
      · rintro ⟨ds, hds, hne, hdig, hval, hle⟩
        rcases hds with rfl | hds
        · exact ⟨hdig, hval, hle⟩
        · rw [List.cons.injEq] at hds
          exact absurd hds.1 hc

/-- Unfolding of `ResourceMetadata.parse` in the pointer-with-`#` case. -/
theorem parse_hash (w : Nat) (mem : List Nat) (hw : w >>> 16 ≠ 0)
    (hh : (wide_to_utf8 mem).head? = some 35) :
    ResourceMetadata.parse w mem =
      match parseU16 (wide_to_utf8 mem).tail with
      | some id => .ok (.Id id)
      | none => .error () := by
  simp [ResourceMetadata.parse, hw, hh]

/-- Claim C1: if all bits of the wire word above the low 16 are zero,
identifier decode returns `Ordinal (wire &&& 0xffff)`; if the wire word is
the address of a null-terminated string whose text does not start with `#`
(codepoint 35), decode returns a `Name` holding exactly that text. -/
theorem c1_parse_ordinal_and_name :
    (∀ w mem, w >>> 16 = 0 →
      ResourceMetadata.parse w mem = .ok (.Id (w &&& 0xffff))) ∧
    (∀ w mem, w >>> 16 ≠ 0 → (wide_to_utf8 mem).head? ≠ some 35 →
      ResourceMetadata.parse w mem =
        .ok (.String (wide_to_utf8 mem) (wide_to_utf8 mem))) := by
  constructor
  · intro w mem hw
    simp [ResourceMetadata.parse, hw]
  · intro w mem hw hh
    simp [ResourceMetadata.parse, hw, hh, clone_wide_eq_wide_to_utf8]

/-- Witness for C1 at concrete inputs: wire word 5 and a pointer to the
string `"abc"`. -/
theorem c1_parse_ordinal_and_name_witness :
    ResourceMetadata.parse 5 [] = .ok (.Id 5) ∧
    ResourceMetadata.parse 65536 [97, 98, 99, 0] =
      .ok (.String [97, 98, 99] [97, 98, 99]) := by
  constructor
  · rw [c1_parse_ordinal_and_name.1 5 [] (by decide)]
    decide
  · rw [c1_parse_ordinal_and_name.2 65536 [97, 98, 99, 0] (by decide) (by decide)]
    decide

/-- Claim C2 counterexample: the wire name `"#+42"` (the remainder `"+42"`
contains the non-digit `+`, codepoint 43) must fail per the claim, yet
decode succeeds with `Ordinal 42`, because Rust `u16` parsing accepts a
single leading plus sign. -/
theorem c2_hash_counterexample :
    ResourceMetadata.parse 65536 [35, 43, 52, 50, 0] = .ok (.Id 42) ∧
    isDigit 43 = false := by decide

/-- Claim C2 (amended): for a name-wire string starting with `#`, decode
returns `Ordinal n` exactly when Rust `u16` parsing of the remainder
succeeds with `n`, and fails (with the payload-free `Err(())`) exactly when
it does not; and Rust `u16` parsing succeeds exactly on one or more ASCII
digits, optionally preceded by a single `+` sign, whose decimal value is at
most 65535 (so an empty remainder, any other non-digit character, or an
out-of-range value fails). -/
theorem c2_hash_parse_amended (w : Nat) (mem : List Nat)
    (hw : w >>> 16 ≠ 0) (hh : (wide_to_utf8 mem).head? = some 35) :
    (∀ n, ResourceMetadata.parse w mem = .ok (.Id n) ↔
        parseU16 (wide_to_utf8 mem).tail = some n) ∧
    (ResourceMetadata.parse w mem = .error () ↔
        parseU16 (wide_to_utf8 mem).tail = none) ∧
    (∀ s n, parseU16 s = some n ↔
      ∃ ds, (s = ds ∨ s = 43 :: ds) ∧ ds ≠ [] ∧
        (∀ c ∈ ds, isDigit c = true) ∧
        ds.foldl (fun a c => a * 10 + (c - 48)) 0 = n ∧ n ≤ 65535) := by
  have hp := parse_hash w mem hw hh
  refine ⟨?_, ?_, fun s n => parseU16_eq_some s n⟩
  · intro n
    rw [hp]
    cases parseU16 (wide_to_utf8 mem).tail with
    | none => simp
    | some id => simp
  · rw [hp]
    cases parseU16 (wide_to_utf8 mem).tail with
    | none => simp
    | some id => simp

/-- Witness for C2 at the concrete input `"#42"`. -/
theorem c2_hash_parse_amended_witness :
    ResourceMetadata.parse 65536 [35, 52, 50, 0] = .ok (.Id 42) :=
  ((c2_hash_parse_amended 65536 [35, 52, 50, 0] (by decide) (by decide)).1
    42).mpr (by decide)

/-- Claim C6 counterexample: the name `"#x"` (codepoints [35, 120]) does
not match the reserved `#<digits>` pattern, so it is an admissible `Name`;
packing it yields the address of its wide buffer, but decoding that wire
value fails with `Err(())` instead of reproducing the name. -/
theorem c6_roundtrip_counterexample :
    ResourceMetadata.pack (.String [35, 120] [35, 120]) = .inr [35, 120] ∧
    ResourceMetadata.parse 65536 ([35, 120] ++ [0]) = .error () := by decide

/-- Claim C6 (amended): encode-then-decode reproduces the identifier for
every `Ordinal` (values are `u16`, below 65536), and for every `Name`
whose text does not start with `#` and whose `wide` field matches its text
(both invariants hold for every `Name` that decode produces), provided the
memory following the packed buffer supplies the NUL terminator that
`clone_wide` drops. -/
theorem c6_pack_parse_roundtrip :
    (∀ id : Nat, id < 65536 →
      (ResourceMetadata.Id id).pack = .inl id ∧
      ∀ mem, ResourceMetadata.parse id mem = .ok (.Id id)) ∧
    (∀ utf8 addr junk, addr >>> 16 ≠ 0 → (∀ u ∈ utf8, u ≠ 0) →
      utf8.head? ≠ some 35 → junk.head? = some 0 →
      (ResourceMetadata.String utf8 utf8).pack = .inr utf8 ∧
      ResourceMetadata.parse addr (utf8 ++ junk) =
        .ok (.String utf8 utf8)) := by
  constructor
  · intro id hid
    refine ⟨rfl, fun mem => ?_⟩
    have h216 : (2 : Nat) ^ 16 = 65536 := by norm_num
    have h0 : id >>> 16 = 0 := by
      rw [Nat.shiftRight_eq_div_pow, h216]
      exact Nat.div_eq_of_lt hid
    have hmask : id &&& 0xffff = id := by
      have hm : (0xffff : Nat) = 2 ^ 16 - 1 := by norm_num
      rw [hm, Nat.and_pow_two_sub_one_eq_mod, h216]
      exact Nat.mod_eq_of_lt hid
    simp [ResourceMetadata.parse, h0, hmask]
  · intro utf8 addr junk haddr hzero hhash hjunk
    have hws : wide_to_utf8 (utf8 ++ junk) = utf8 :=
      wide_to_utf8_append utf8 junk hzero hjunk
    refine ⟨rfl, ?_⟩
    simp [ResourceMetadata.parse, haddr, hws, hhash, clone_wide_eq_wide_to_utf8]

/-- Witness for C6 at the ordinal 7 and the name `"a"` followed in memory
by a zero unit. -/
theorem c6_pack_parse_roundtrip_witness :
    ResourceMetadata.parse 7 [] = .ok (.Id 7) ∧
    ResourceMetadata.parse 65536 ([97] ++ [0]) = .ok (.String [97] [97]) :=
  ⟨(c6_pack_parse_roundtrip.1 7 (by decide)).2 [],
   (c6_pack_parse_roundtrip.2 [97] 65536 [0] (by decide) (by decide)
    (by decide) (by decide)).2⟩

/-- Claim C7 counterexample: a pointer to the empty string (memory holding
just the zero terminator) decodes to a `Name` whose text is empty, so
decode does not always produce a non-empty `Name`. -/
theorem c7_name_empty_counterexample :
    ¬ ∀ (w : Nat) (mem utf8 wide : List Nat),
        ResourceMetadata.parse w mem = .ok (.String utf8 wide) →
          utf8 ≠ [] := by
  intro h
  exact h 65536 [0] [] [] (by decide) rfl

/-- Claim C7 (amended): every `Name` produced by decode carries exactly the
pointed-to string's text, that text never starts with `#` (codepoint 35) —
so in particular it never matches the reserved `#<digits>` pattern — and it
is non-empty whenever the pointed-to string is non-empty; a pointer to an
empty string, however, yields an empty `Name`. -/
theorem c7_name_invariant (w : Nat) (mem utf8 wide : List Nat)
    (h : ResourceMetadata.parse w mem = .ok (.String utf8 wide)) :
    utf8 = wide_to_utf8 mem ∧ utf8.head? ≠ some 35 ∧
    (wide_to_utf8 mem ≠ [] → utf8 ≠ []) := by
  by_cases hw : w >>> 16 = 0
  · simp [ResourceMetadata.parse, hw] at h
  · by_cases hh : (wide_to_utf8 mem).head? = some 35
    · rw [parse_hash w mem hw hh] at h
      cases hp : parseU16 (wide_to_utf8 mem).tail with
      | none => rw [hp] at h; cases h
      | some id => rw [hp] at h; cases h
    · have := (c1_parse_ordinal_and_name.2 w mem hw hh).symm.trans h
      simp only [Except.ok.injEq, ResourceMetadata.String.injEq] at this
      obtain ⟨rfl, rfl⟩ := this
      exact ⟨rfl, hh, fun hne => hne⟩

/-- Witness for C7 at the concrete name wire string `"a"`. -/
theorem c7_name_invariant_witness :
    ([97] : List Nat) = wide_to_utf8 [97, 0] ∧
    ([97] : List Nat).head? ≠ some 35 ∧
    (wide_to_utf8 [97, 0] ≠ [] → ([97] : List Nat) ≠ []) :=
  c7_name_invariant 65536 [97, 0] [97] [97] (by decide)

/-- Claim C8 (code bug): decoding the wire name `"A"` stores `wide = [65]`
with no trailing zero, because `clone_wide` in `src/sys.rs` copies only up
to the terminator without appending it; packing that value therefore hands
out the address of a buffer that is not null-terminated, contradicting the
documented contract. The sibling `clone_utf16` in `src/str_util.rs` appends
the terminator, as the contract requires. -/
theorem c8_clone_wide_drops_terminator :
    ResourceMetadata.parse 65536 [65, 0] = .ok (.String [65] [65]) ∧
    ResourceMetadata.pack (.String [65] [65]) = .inr [65] ∧
    clone_wide [65, 0] = [65] ∧ (0 : Nat) ∉ clone_wide [65, 0] ∧
    clone_utf16 [65, 0] = [65, 0] := by decide

/-! ### Lemmas about the message-table decoder -/

theorem readU16_none (buf : List Nat) (i : Nat) (h : buf.length < i + 2) :
    readU16 buf i = none := by
  have h2 : buf[i + 1]? = none := List.getElem?_eq_none (by omega)
  cases hg : buf[i]? with
  | none => simp [readU16, hg, h2]
  | some a => simp [readU16, hg, h2]

theorem range_map_shift (lowId n : Nat) :
    (List.range (n + 1)).map (lowId + ·) =
      lowId :: (List.range n).map ((lowId + 1) + ·) := by
  rw [List.range_succ_eq_map, List.map_cons, List.map_map]
  refine congrArg₂ List.cons (Nat.add_zero lowId) ?_
  exact List.map_congr_left (fun a _ => by simp [Function.comp]; omega)

theorem decodeBlock_ok_spec (buf : List Nat) :
    ∀ (count lowId cursor : Nat) (l : List (Nat × List Nat)),
      decodeBlock buf lowId count cursor = .ok l →
      l.length = count ∧
      l.map Prod.fst = (List.range count).map (lowId + ·) := by
  intro count
  induction count with
  | zero =>
    intro lowId cursor l h
    simp only [decodeBlock] at h
    injection h with h
    subst h
    simp
  | succ n ih =>
    intro lowId cursor l h
    simp only [decodeBlock] at h
    cases h1 : readU16 buf cursor with
    | none => rw [h1] at h; cases h
    | some len =>
      simp only [h1] at h
      cases h2 : readU16 buf (cursor + 2) with
      | none => rw [h2] at h; cases h
      | some flags =>
        simp only [h2] at h
        by_cases hb : buf.length < cursor + len
        · rw [if_pos hb] at h; cases h
        · rw [if_neg hb] at h
          by_cases hf0 : flags = 0
          · rw [if_pos hf0] at h
            cases hr : decodeBlock buf (lowId + 1) n (cursor + len) with
            | error e => rw [hr] at h; cases h
            | ok rest =>
              simp only [hr] at h
              injection h with h
              subst h
              obtain ⟨ihl, ihm⟩ := ih (lowId + 1) (cursor + len) rest hr
              refine ⟨by simp [ihl], ?_⟩
              rw [List.map_cons, ihm, range_map_shift]
          · rw [if_neg hf0] at h
            by_cases hf1 : flags = 1
            · rw [if_pos hf1] at h
              cases hr : decodeBlock buf (lowId + 1) n (cursor + len) with
              | error e => rw [hr] at h; cases h
              | ok rest =>
                simp only [hr] at h
                injection h with h
                subst h
                obtain ⟨ihl, ihm⟩ := ih (lowId + 1) (cursor + len) rest hr
                refine ⟨by simp [ihl], ?_⟩
                rw [List.map_cons, ihm, range_map_shift]
            · rw [if_neg hf1] at h; cases h

theorem decodeBlock_truncated_header (buf : List Nat)
    (lowId count cursor : Nat) (hc : count ≠ 0) (h : buf.length < cursor + 2) :
    decodeBlock buf lowId count cursor = .error .Truncated := by
  cases count with
  | zero => exact absurd rfl hc
  | succ n => simp only [decodeBlock, readU16_none buf cursor h]

theorem decodeBlock_truncated_record (buf : List Nat)
    (lowId count cursor len : Nat) (hc : count ≠ 0)
    (h1 : readU16 buf cursor = some len) (h2 : buf.length < cursor + len) :
    decodeBlock buf lowId count cursor = .error .Truncated := by
  cases count with
  | zero => exact absurd rfl hc
  | succ n =>
    simp only [decodeBlock, h1]
    cases hf : readU16 buf (cursor + 2) with
    | none => rfl
    | some flags => simp [h2]

theorem decodeBlock_unknown_flag (buf : List Nat)
    (lowId count cursor len flags : Nat) (hc : count ≠ 0)
    (h1 : readU16 buf cursor = some len)
    (h2 : readU16 buf (cursor + 2) = some flags)
    (hb : ¬ buf.length < cursor + len) (hf0 : flags ≠ 0) (hf1 : flags ≠ 1) :
    decodeBlock buf lowId count cursor = .error .UnknownEncodingFlag := by
  cases count with
  | zero => exact absurd rfl hc
  | succ n => simp only [decodeBlock, h1, h2, if_neg hb, if_neg hf0, if_neg hf1]

theorem decodeBlocks_cons_ok (buf : List Nat) (d : MessageBlockDesc)
    (rest : List MessageBlockDesc) (l : List (Nat × List Nat))
    (h : decodeBlocks buf (d :: rest) = .ok l) :
    ∃ l1 l2,
      decodeBlock buf d.lowId (blockCount d) d.offsetToEntries = .ok l1 ∧
      decodeBlocks buf rest = .ok l2 ∧ l = l1 ++ l2 := by
  simp only [decodeBlocks] at h
  cases h1 : decodeBlock buf d.lowId (blockCount d) d.offsetToEntries with
  | error e => rw [h1] at h; cases h
  | ok l1 =>
    rw [h1] at h
    cases h2 : decodeBlocks buf rest with
    | error e => rw [h2] at h; cases h
    | ok l2 =>
      rw [h2] at h
      injection h with h
      exact ⟨l1, l2, rfl, rfl, h.symm⟩

theorem decodeBlocks_append_error (buf : List Nat) (e : DecodeError) :
    ∀ (ds1 : List MessageBlockDesc) (l1 : List (Nat × List Nat))
      (d : MessageBlockDesc) (ds2 : List MessageBlockDesc),
      decodeBlocks buf ds1 = .ok l1 →
      decodeBlock buf d.lowId (blockCount d) d.offsetToEntries = .error e →
      decodeBlocks buf (ds1 ++ d :: ds2) = .error e := by
  intro ds1
  induction ds1 with
  | nil =>
    intro l1 d ds2 h1 h2
    simp only [List.nil_append, decodeBlocks, h2]
  | cons d0 rest ih =>
    intro l1 d ds2 h1 h2
    simp only [decodeBlocks] at h1
    cases h0 : decodeBlock buf d0.lowId (blockCount d0) d0.offsetToEntries with
    | error e0 => rw [h0] at h1; cases h1
    | ok l0 =>
      rw [h0] at h1
      cases hr : decodeBlocks buf rest with
      | error e0 => rw [hr] at h1; cases h1
      | ok lr =>
        rw [List.cons_append]
        simp only [decodeBlocks, h0, ih lr d ds2 hr h2]

theorem decodeMessageTable_eq (buf : List Nat) (n : Nat)
    (ds : List MessageBlockDesc) (h1 : readU32 buf 0 = some n)
    (h2 : readDescs buf n 4 = some ds) :
    decodeMessageTable buf = decodeBlocks buf ds := by
  simp only [decodeMessageTable, h1, h2]

/-- Claim C3 (decoder modelled from the spec §4.2): during a block's record
walk, a cursor whose record header cannot be read within the buffer, or
whose declared record extent exceeds the buffer end, fails the decode with
`Truncated`; a `Truncated` failure of any block fails the whole multi-block
decode (earlier blocks' output is discarded); and a successful block decode
always yields exactly `count` entries, so a buffer whose `highId` implies
more records than the available bytes can never produce a silently short
success. The decoder is a total Lean function, so it cannot crash. -/
theorem c3_truncated_never_short :
    (∀ (buf : List Nat) (lowId count cursor : Nat) (l : List (Nat × List Nat)),
      decodeBlock buf lowId count cursor = .ok l → l.length = count) ∧
    (∀ (buf : List Nat) (lowId count cursor : Nat), count ≠ 0 →
      buf.length < cursor + 2 →
      decodeBlock buf lowId count cursor = .error .Truncated) ∧
    (∀ (buf : List Nat) (lowId count cursor len : Nat), count ≠ 0 →
      readU16 buf cursor = some len → buf.length < cursor + len →
      decodeBlock buf lowId count cursor = .error .Truncated) ∧
    (∀ (buf : List Nat) (ds1 : List MessageBlockDesc)
      (l1 : List (Nat × List Nat)) (d : MessageBlockDesc)
      (ds2 : List MessageBlockDesc),
      decodeBlocks buf ds1 = .ok l1 →
      decodeBlock buf d.lowId (blockCount d) d.offsetToEntries =
        .error .Truncated →
      decodeBlocks buf (ds1 ++ d :: ds2) = .error .Truncated) ∧
    (∀ (buf : List Nat) (n : Nat) (ds : List MessageBlockDesc),
      readU32 buf 0 = some n → readDescs buf n 4 = some ds →
      decodeMessageTable buf = decodeBlocks buf ds) :=
  ⟨fun buf lowId count cursor l h =>
      (decodeBlock_ok_spec buf count lowId cursor l h).1,
   fun buf lowId count cursor hc h =>
      decodeBlock_truncated_header buf lowId count cursor hc h,
   fun buf lowId count cursor len hc h1 h2 =>
      decodeBlock_truncated_record buf lowId count cursor len hc h1 h2,
   fun buf ds1 l1 d ds2 h1 h2 =>
      decodeBlocks_append_error buf .Truncated ds1 l1 d ds2 h1 h2,
   fun buf n ds h1 h2 => decodeMessageTable_eq buf n ds h1 h2⟩

/-- Witness for C3: the buffer declaring one block with ids 1..9 but bytes
for only one record — the walk reaches offset 21 with 8 records still due
and the buffer (21 bytes) exhausted, and the whole decode is `Truncated`. -/
theorem c3_truncated_never_short_witness :
    decodeBlock
      [1, 0, 0, 0, 1, 0, 0, 0, 9, 0, 0, 0, 16, 0, 0, 0, 5, 0, 0, 0, 97]
      2 8 21 = .error .Truncated :=
  c3_truncated_never_short.2.1
    [1, 0, 0, 0, 1, 0, 0, 0, 9, 0, 0, 0, 16, 0, 0, 0, 5, 0, 0, 0, 97]
    2 8 21 (by decide) (by decide)

/-- Claim C4 (decoder modelled from the spec §4.2): a record whose flags
field is neither 0 nor 1 makes the block decode fail with
`UnknownEncodingFlag`, and a block failing that way makes the whole
multi-block decode fail with `UnknownEncodingFlag` — earlier blocks'
output is discarded, so the entire operation aborts, not just the current
block. Determinism on every run holds because the decoder is a pure
function of the buffer. -/
theorem c4_unknown_flag_aborts :
    (∀ (buf : List Nat) (lowId count cursor len flags : Nat), count ≠ 0 →
      readU16 buf cursor = some len →
      readU16 buf (cursor + 2) = some flags →
      ¬ buf.length < cursor + len → flags ≠ 0 → flags ≠ 1 →
      decodeBlock buf lowId count cursor = .error .UnknownEncodingFlag) ∧
    (∀ (buf : List Nat) (ds1 : List MessageBlockDesc)
      (l1 : List (Nat × List Nat)) (d : MessageBlockDesc)
      (ds2 : List MessageBlockDesc),
      decodeBlocks buf ds1 = .ok l1 →
      decodeBlock buf d.lowId (blockCount d) d.offsetToEntries =
        .error .UnknownEncodingFlag →
      decodeBlocks buf (ds1 ++ d :: ds2) = .error .UnknownEncodingFlag) ∧
    (∀ (buf : List Nat) (n : Nat) (ds : List MessageBlockDesc),
      readU32 buf 0 = some n → readDescs buf n 4 = some ds →
      decodeMessageTable buf = decodeBlocks buf ds) :=
  ⟨fun buf lowId count cursor len flags hc h1 h2 hb hf0 hf1 =>
      decodeBlock_unknown_flag buf lowId count cursor len flags hc h1 h2 hb
        hf0 hf1,
   fun buf ds1 l1 d ds2 h1 h2 =>
      decodeBlocks_append_error buf .UnknownEncodingFlag ds1 l1 d ds2 h1 h2,
   fun buf n ds h1 h2 => decodeMessageTable_eq buf n ds h1 h2⟩

/-- Witness for C4: a two-block buffer whose first block decodes fine and
whose second block's record carries flags = 2; the whole decode of both
blocks is `UnknownEncodingFlag`, and `decodeMessageTable` on the buffer
reduces to exactly that two-block decode. -/
theorem c4_unknown_flag_aborts_witness :
    decodeBlocks
      [2, 0, 0, 0, 1, 0, 0, 0, 1, 0, 0, 0, 28, 0, 0, 0,
       5, 0, 0, 0, 5, 0, 0, 0, 34, 0, 0, 0,
       6, 0, 0, 0, 97, 98, 6, 0, 2, 0, 0, 0]
      ([⟨1, 1, 28⟩] ++ ⟨5, 5, 34⟩ :: []) = .error .UnknownEncodingFlag ∧
    decodeMessageTable
      [2, 0, 0, 0, 1, 0, 0, 0, 1, 0, 0, 0, 28, 0, 0, 0,
       5, 0, 0, 0, 5, 0, 0, 0, 34, 0, 0, 0,
       6, 0, 0, 0, 97, 98, 6, 0, 2, 0, 0, 0] =
      decodeBlocks
        [2, 0, 0, 0, 1, 0, 0, 0, 1, 0, 0, 0, 28, 0, 0, 0,
         5, 0, 0, 0, 5, 0, 0, 0, 34, 0, 0, 0,
         6, 0, 0, 0, 97, 98, 6, 0, 2, 0, 0, 0]
        [⟨1, 1, 28⟩, ⟨5, 5, 34⟩] :=
  ⟨c4_unknown_flag_aborts.2.1
      [2, 0, 0, 0, 1, 0, 0, 0, 1, 0, 0, 0, 28, 0, 0, 0,
       5, 0, 0, 0, 5, 0, 0, 0, 34, 0, 0, 0,
       6, 0, 0, 0, 97, 98, 6, 0, 2, 0, 0, 0]
      [⟨1, 1, 28⟩] [(1, [97, 98])] ⟨5, 5, 34⟩ [] (by decide) (by decide),
   c4_unknown_flag_aborts.2.2
      [2, 0, 0, 0, 1, 0, 0, 0, 1, 0, 0, 0, 28, 0, 0, 0,
       5, 0, 0, 0, 5, 0, 0, 0, 34, 0, 0, 0,
       6, 0, 0, 0, 97, 98, 6, 0, 2, 0, 0, 0]
      2 [⟨1, 1, 28⟩, ⟨5, 5, 34⟩] (by decide) (by decide)⟩

/-- Claim C5 (decoder modelled from the spec §4.2): a successful block
decode emits exactly the ids `lowId + k` for `k < count` in ascending
order (its entry ids are the mapped range); a successful multi-block
decode is the concatenation of the per-block lists in declaration order,
so blocks are not sorted by ID and duplicate ids across blocks are each
emitted without deduplication; and `decodeMessageTable` is exactly that
multi-block decode on the declared descriptors. -/
theorem c5_declaration_order_ids :
    (∀ (buf : List Nat) (lowId count cursor : Nat) (l : List (Nat × List Nat)),
      decodeBlock buf lowId count cursor = .ok l →
      l.length = count ∧
      l.map Prod.fst = (List.range count).map (lowId + ·)) ∧
    (∀ (buf : List Nat) (d : MessageBlockDesc) (rest : List MessageBlockDesc)
      (l : List (Nat × List Nat)),
      decodeBlocks buf (d :: rest) = .ok l →
      ∃ l1 l2,
        decodeBlock buf d.lowId (blockCount d) d.offsetToEntries = .ok l1 ∧
        decodeBlocks buf rest = .ok l2 ∧ l = l1 ++ l2) ∧
    (∀ buf : List Nat, decodeBlocks buf [] = .ok []) ∧
    (∀ (buf : List Nat) (n : Nat) (ds : List MessageBlockDesc),
      readU32 buf 0 = some n → readDescs buf n 4 = some ds →
      decodeMessageTable buf = decodeBlocks buf ds) :=
  ⟨fun buf lowId count cursor l h => decodeBlock_ok_spec buf count lowId cursor l h,
   fun buf d rest l h => decodeBlocks_cons_ok buf d rest l h,
   fun _ => rfl,
   fun buf n ds h1 h2 => decodeMessageTable_eq buf n ds h1 h2⟩

/-- Witness for C5: a buffer with two blocks covering the same id 1 (one
ANSI, one UTF-16 record); the first block's single entry has id 1, and
the two-block decode splits as first block followed by second block, both
emitted. -/
theorem c5_declaration_order_ids_witness :
    (([(1, [97, 98])] : List (Nat × List Nat)).length = 1 ∧
      ([(1, [97, 98])] : List (Nat × List Nat)).map Prod.fst =
        (List.range 1).map (1 + ·)) ∧
    ∃ l1 l2,
      decodeBlock
        [2, 0, 0, 0, 1, 0, 0, 0, 1, 0, 0, 0, 28, 0, 0, 0,
         1, 0, 0, 0, 1, 0, 0, 0, 34, 0, 0, 0,
         6, 0, 0, 0, 97, 98, 6, 0, 1, 0, 99, 0]
        (MessageBlockDesc.lowId ⟨1, 1, 28⟩) (blockCount ⟨1, 1, 28⟩)
        (MessageBlockDesc.offsetToEntries ⟨1, 1, 28⟩) = .ok l1 ∧
      decodeBlocks
        [2, 0, 0, 0, 1, 0, 0, 0, 1, 0, 0, 0, 28, 0, 0, 0,
         1, 0, 0, 0, 1, 0, 0, 0, 34, 0, 0, 0,
         6, 0, 0, 0, 97, 98, 6, 0, 1, 0, 99, 0] [⟨1, 1, 34⟩] = .ok l2 ∧
      ([(1, [97, 98]), (1, [99])] : List (Nat × List Nat)) = l1 ++ l2 :=
  ⟨c5_declaration_order_ids.1
      [2, 0, 0, 0, 1, 0, 0, 0, 1, 0, 0, 0, 28, 0, 0, 0,
       1, 0, 0, 0, 1, 0, 0, 0, 34, 0, 0, 0,
       6, 0, 0, 0, 97, 98, 6, 0, 1, 0, 99, 0]
      1 1 28 [(1, [97, 98])] (by decide),
   c5_declaration_order_ids.2.1
      [2, 0, 0, 0, 1, 0, 0, 0, 1, 0, 0, 0, 28, 0, 0, 0,
       1, 0, 0, 0, 1, 0, 0, 0, 34, 0, 0, 0,
       6, 0, 0, 0, 97, 98, 6, 0, 1, 0, 99, 0]
      ⟨1, 1, 28⟩ [⟨1, 1, 34⟩] [(1, [97, 98]), (1, [99])] (by decide)⟩

/-- Claim C9 (error branch from `src/main.rs` lines 9-14; entry formatting
modelled from the spec, §6): when the decode succeeds the program prints
one line per decoded entry — hexadecimal id, colon (58), space (32),
decoded text — and exits with code 0; when it fails it prints the single
line `ERROR: <message>` and exits with code 1; the exit code is 0 exactly
when the decode succeeded. -/
theorem c9_observable_behaviour (buf : List Nat) :
    (∀ es, decodeMessageTable buf = .ok es →
      runProgram buf = (es.map formatEntry, 0)) ∧
    (∀ e, decodeMessageTable buf = .error e →
      runProgram buf = ([[69, 82, 82, 79, 82, 58, 32] ++ errorText e], 1)) ∧
    ((runProgram buf).2 = 0 ↔ ∃ es, decodeMessageTable buf = .ok es) := by
  refine ⟨?_, ?_, ?_⟩
  · intro es h
    simp [runProgram, h, Except.mapError, programOutput]
  · intro e h
    simp [runProgram, h, Except.mapError, programOutput]
  · cases h : decodeMessageTable buf with
    | error e =>
      simp [runProgram, h, Except.mapError, programOutput]
    | ok es =>
      simp [runProgram, h, Except.mapError, programOutput]

/-- Witness for C9: the empty buffer fails the decode (`Truncated`), and
the observable behaviour is the single `ERROR:`-prefixed line with exit
code 1; a minimal well-formed buffer with one single-entry block prints
its one formatted line with exit code 0. -/
theorem c9_observable_behaviour_witness :
    runProgram [] =
      ([[69, 82, 82, 79, 82, 58, 32] ++ errorText .Truncated], 1) ∧
    runProgram
      [1, 0, 0, 0, 1, 0, 0, 0, 1, 0, 0, 0, 16, 0, 0, 0, 5, 0, 0, 0, 97] =
      (([(1, [97])] : List (Nat × List Nat)).map formatEntry, 0) :=
  ⟨(c9_observable_behaviour []).2.1 .Truncated (by decide),
   (c9_observable_behaviour
      [1, 0, 0, 0, 1, 0, 0, 0, 1, 0, 0, 0, 16, 0, 0, 0, 5, 0, 0, 0, 97]).1
      [(1, [97])] (by decide)⟩

/-- Claim C10: `utf16_to_utf8` produces exactly one character per 16-bit
unit before the first zero unit, each with codepoint equal to the unit
value (it is the zero-terminated `takeWhile`); `wide_to_utf8` is the
identical function; every produced codepoint is a valid Unicode scalar
provided no input unit lies in the surrogate range 0xD800-0xDFFF — a
necessary precondition, since the units are passed unchecked to
`char::from_u32_unchecked` and a surrogate unit such as 0xD800 is passed
through verbatim yet is not a valid character. -/
theorem c10_unit_per_char (mem : List Nat) :
    utf16_to_utf8 mem = mem.takeWhile (fun u => u ≠ 0) ∧
    wide_to_utf8 mem = utf16_to_utf8 mem ∧
    ((∀ u ∈ mem, u < 65536 ∧ isUnicodeScalar u = true) →
      ∀ c ∈ utf16_to_utf8 mem, isUnicodeScalar c = true) ∧
    (isUnicodeScalar 0xD800 = false ∧
      utf16_to_utf8 [0xD800, 0] = [0xD800]) := by
  refine ⟨utf16_to_utf8_eq_takeWhile mem, wide_to_utf8_eq_utf16 mem,
    ?_, by decide, by decide⟩
  intro h c hc
  have hm : c ∈ mem := by
    rw [utf16_to_utf8_eq_takeWhile] at hc
    exact List.takeWhile_subset _ hc
  exact (h c hm).2

/-- Witness for C10 on the memory `[97, 0, 98]`: one character (97) is
produced, the walk stopping at the zero unit. -/
theorem c10_unit_per_char_witness :
    utf16_to_utf8 [97, 0, 98] = [97, 0, 98].takeWhile (fun u => u ≠ 0) ∧
    wide_to_utf8 [97, 0, 98] = utf16_to_utf8 [97, 0, 98] ∧
    ((∀ u ∈ [97, 0, 98], u < 65536 ∧ isUnicodeScalar u = true) →
      ∀ c ∈ utf16_to_utf8 [97, 0, 98], isUnicodeScalar c = true) ∧
    (isUnicodeScalar 0xD800 = false ∧
      utf16_to_utf8 [0xD800, 0] = [0xD800]) :=
  c10_unit_per_char [97, 0, 98]

end DumpMsgTables
